import Mathlib

/-!
Verification of the APNs payload model and its JSON projection
(`src/payload.rs`).  The Rust code builds JSON values of the
`rustc_serialize` `Json` type, using `BTreeMap<String, Json>` for
objects, and renders them with the compact writer.  We embed the JSON
value tree, the ordered-map insertion used by `BTreeMap` (keys in
ascending lexicographic order), the compact rendering (including the
string-escaping rules of `rustc_serialize::json::escape_str`), the data
model (`Payload`, `APS`, `APSAlert`, `APSLocalizedAlert`), the three
constructors and the `to_json` implementations.

The Rust source contains two conflicting copies of the model structs
(`loc_key`/`loc_args` appear once as optional and once as required);
the single `ToJson for APSLocalizedAlert` implementation treats them as
optional (`if let Some(..)`), so the embedding follows the optional
typing, which is also what the serializer code demands.
-/

namespace Apns

/-- The subset of `rustc_serialize::json::Json` this library produces:
`Null`, `U64` (the image of `u32::to_json`), `String`, `Array`,
`Object`.  Objects are `BTreeMap`s, embedded as association lists kept
in ascending key order by `mapInsert`. -/
inductive Json where
  | null : Json
  | num : Nat → Json
  | str : String → Json
  | arr : List Json → Json
  | obj : List (String × Json) → Json

/-- Executable lexicographic comparison on character lists, mirroring
the `Ord` instance of Rust's `String` (byte-lexicographic, which on
UTF-8 agrees with codepoint-lexicographic). -/
def charsLt : List Char → List Char → Bool
  | _, [] => false
  | [], _ :: _ => true
  | x :: xs, y :: ys => if x < y then true else if x = y then charsLt xs ys else false

/-- Key comparison used by the embedded `BTreeMap`. -/
def strLt (a b : String) : Bool := charsLt a.data b.data

/-- Model of `BTreeMap::insert`: insert into an association list kept sorted in
strictly ascending key order, replacing the value on an equal key. -/
def mapInsert (k : String) (v : Json) : List (String × Json) → List (String × Json)
  | [] => [(k, v)]
  | (k', v') :: rest =>
    if strLt k k' then (k, v) :: (k', v') :: rest
    else if k = k' then (k, v) :: rest
    else (k', v') :: mapInsert k v rest

/-- One hexadecimal digit, lowercase, as written by `rustc_serialize`. -/
def hexDigit (n : Nat) : Char :=
  if n < 10 then Char.ofNat (48 + n) else Char.ofNat (87 + n)

/-- Four-digit lowercase hex, as in the `\u00XX` escapes of
`rustc_serialize::json::escape_str`. -/
def hex4 (n : Nat) : String :=
  String.mk [hexDigit (n / 4096 % 16), hexDigit (n / 256 % 16),
             hexDigit (n / 16 % 16), hexDigit (n % 16)]

/-- Model of `rustc_serialize::json::escape_str`, per character: it escapes the
quote, the backslash, the control bytes `0x00`–`0x1f` (with short forms
for backspace, tab, newline, form feed, carriage return) and `0x7f`;
every other character is written as itself. -/
def escapeChar (c : Char) : String :=
  if c = '"' then "\\\""
  else if c = '\\' then "\\\\"
  else if c = '\x08' then "\\b"
  else if c = '\t' then "\\t"
  else if c = '\n' then "\\n"
  else if c = '\x0c' then "\\f"
  else if c = '\r' then "\\r"
  else if c.toNat < 32 then "\\u" ++ hex4 c.toNat
  else if c.toNat = 127 then "\\u007f"
  else String.singleton c

/-- A JSON string literal: quote, escaped characters, quote. -/
def escapeStr (s : String) : String :=
  "\"" ++ String.join (s.data.map escapeChar) ++ "\""

mutual

/-- The compact writer of `rustc_serialize` (`Json::to_string`): no
whitespace, objects in map (ascending-key) order. -/
def Json.render : Json → String
  | .null => "null"
  | .num n => Nat.repr n
  | .str s => escapeStr s
  | .arr xs => "[" ++ Json.renderArr xs ++ "]"
  | .obj kvs => "\x7b" ++ Json.renderObj kvs ++ "\x7d"
termination_by structural j => j

/-- Comma-separated rendering of array elements. -/
def Json.renderArr : List Json → String
  | [] => ""
  | [x] => x.render
  | x :: y :: rest => x.render ++ "," ++ Json.renderArr (y :: rest)
termination_by structural xs => xs

/-- Comma-separated rendering of `"key":value` object entries. -/
def Json.renderObj : List (String × Json) → String
  | [] => ""
  | [(k, v)] => escapeStr k ++ ":" ++ v.render
  | (k, v) :: e :: rest => escapeStr k ++ ":" ++ v.render ++ "," ++ Json.renderObj (e :: rest)
termination_by structural kvs => kvs

end

/-- Model of `Vec<String>::to_json`: a JSON array of the strings. -/
def strListJson (xs : List String) : Json := Json.arr (xs.map Json.str)

/-- Child properties of the `alert` property (`APSLocalizedAlert`).
`loc_key` and `loc_args` are optional, following the `ToJson`
implementation (see the module comment). -/
structure APSLocalizedAlert where
  title : String
  body : String
  title_loc_key : Option String
  title_loc_args : Option (List String)
  action_loc_key : Option String
  loc_key : Option String
  loc_args : Option (List String)
  launch_image : Option String

/-- The alert (`APSAlert`): a plain message string or a localized alert. -/
inductive APSAlert where
  | plain : String → APSAlert
  | localized : APSLocalizedAlert → APSAlert

/-- The `aps` dictionary (`APS`): `u32` fields become `Nat`,
string-like fields (`String`/`Cow<str>`) become `String`. -/
structure APS where
  alert : Option APSAlert
  badge : Option Nat
  sound : Option String
  content_available : Option Nat
  category : Option String

/-- The payload: exactly one field, the `aps` dictionary. -/
structure Payload where
  aps : APS

/-- Model of `impl ToJson for APSLocalizedAlert`: `title` and `body` always
inserted; `title-loc-key`, `title-loc-args`, `action-loc-key`,
`loc-key`, `loc-args` inserted with the value when set and as explicit
`Json::Null` when absent; `launch-image` inserted only when set. -/
def APSLocalizedAlert.toJson (l : APSLocalizedAlert) : Json :=
  let d : List (String × Json) := []
  let d := mapInsert "title" (Json.str l.title) d
  let d := mapInsert "body" (Json.str l.body) d
  let d := match l.title_loc_key with
    | some s => mapInsert "title-loc-key" (Json.str s) d
    | none => mapInsert "title-loc-key" Json.null d
  let d := match l.title_loc_args with
    | some xs => mapInsert "title-loc-args" (strListJson xs) d
    | none => mapInsert "title-loc-args" Json.null d
  let d := match l.action_loc_key with
    | some s => mapInsert "action-loc-key" (Json.str s) d
    | none => mapInsert "action-loc-key" Json.null d
  let d := match l.loc_key with
    | some s => mapInsert "loc-key" (Json.str s) d
    | none => mapInsert "loc-key" Json.null d
  let d := match l.loc_args with
    | some xs => mapInsert "loc-args" (strListJson xs) d
    | none => mapInsert "loc-args" Json.null d
  let d := match l.launch_image with
    | some s => mapInsert "launch-image" (Json.str s) d
    | none => d
  Json.obj d

/-- Model of `impl ToJson for APS`: every key inserted only when the
corresponding field is `Some`; `content_available` is written under the
hyphenated key `content-available`. -/
def APS.toJson (a : APS) : Json :=
  let d : List (String × Json) := []
  let d := match a.alert with
    | some (.plain s) => mapInsert "alert" (Json.str s) d
    | some (.localized l) => mapInsert "alert" l.toJson d
    | none => d
  let d := match a.badge with
    | some b => mapInsert "badge" (Json.num b) d
    | none => d
  let d := match a.sound with
    | some s => mapInsert "sound" (Json.str s) d
    | none => d
  let d := match a.content_available with
    | some c => mapInsert "content-available" (Json.num c) d
    | none => d
  let d := match a.category with
    | some c => mapInsert "category" (Json.str c) d
    | none => d
  Json.obj d

/-- Model of `impl ToJson for Payload`: a singleton object mapping `aps`. -/
def Payload.toJson (p : Payload) : Json :=
  Json.obj (mapInsert "aps" p.aps.toJson [])

/-- Model of `Payload::to_string`: render the JSON value. -/
def Payload.toString (p : Payload) : String :=
  p.toJson.render

/-- Model of `Payload::len`: the byte length (`String::len` counts UTF-8 bytes)
of the rendered text. -/
def Payload.len (p : Payload) : Nat :=
  p.toString.utf8ByteSize

/-- Model of `Payload::new`: standard notification.  `alert`, `badge` and
`sound` are required and stored present; `content_available` is never
set; `category` is stored as passed. -/
def Payload.new (alert : APSAlert) (badge : Nat) (sound : String)
    (category : Option String) : Payload :=
  { aps :=
    { alert := some alert
      badge := some badge
      sound := some sound
      content_available := none
      category := category } }

/-- Model of `Payload::new_action_notification`: `badge` is optional, `category`
is required. -/
def Payload.new_action_notification (alert : APSAlert) (badge : Option Nat)
    (sound : String) (category : String) : Payload :=
  { aps :=
    { alert := some alert
      badge := badge
      sound := some sound
      content_available := none
      category := some category } }

/-- Model of `Payload::new_silent_notification`: everything absent except
`content_available = 1`. -/
def Payload.new_silent_notification : Payload :=
  { aps :=
    { alert := none
      badge := none
      sound := none
      content_available := some 1
      category := none } }

/-- The JSON value of an alert: `Plain` becomes the bare string,
`Localized` delegates to the localized-alert projection. -/
def alertJson : APSAlert → Json
  | .plain s => Json.str s
  | .localized l => l.toJson

/-- Map entry for an optional field under the omit-on-absence rule. -/
def optEntry {α : Type} (k : String) (f : α → Json) : Option α → List (String × Json)
  | none => []
  | some x => [(k, f x)]

/-- Map entry for an optional field under the null-on-absence rule. -/
def nullEntry {α : Type} (k : String) (f : α → Json) : Option α → List (String × Json)
  | none => [(k, Json.null)]
  | some x => [(k, f x)]

/-- Normal form of the `APS` projection: the five possible entries in
ascending key order, each present exactly when its field is set. -/
theorem aps_toJson_eq (a : APS) : a.toJson = Json.obj
    (optEntry "alert" alertJson a.alert ++
     optEntry "badge" Json.num a.badge ++
     optEntry "category" Json.str a.category ++
     optEntry "content-available" Json.num a.content_available ++
     optEntry "sound" Json.str a.sound) := by
  obtain ⟨(_ | (s | l)), (_ | b), (_ | snd), (_ | ca), (_ | cat)⟩ := a <;> rfl

/-- Normal form of the `APSLocalizedAlert` projection: eight entries in
ascending key order; `title` and `body` always present, the five
localization fields present with a value or an explicit null, and
`launch-image` present exactly when set. -/
theorem locAlert_toJson_eq (l : APSLocalizedAlert) : l.toJson = Json.obj
    (nullEntry "action-loc-key" Json.str l.action_loc_key ++
     [("body", Json.str l.body)] ++
     optEntry "launch-image" Json.str l.launch_image ++
     nullEntry "loc-args" strListJson l.loc_args ++
     nullEntry "loc-key" Json.str l.loc_key ++
     [("title", Json.str l.title)] ++
     nullEntry "title-loc-args" strListJson l.title_loc_args ++
     nullEntry "title-loc-key" Json.str l.title_loc_key) := by
  obtain ⟨t, bd, (_ | tlk), (_ | tla), (_ | alk), (_ | lk), (_ | la), (_ | li)⟩ := l <;> rfl

/-- The value stored under an always-present-or-null key: the field's
value when set, `Json.null` when absent. -/
def nullOr {α : Type} (f : α → Json) : Option α → Json
  | none => Json.null
  | some x => f x

/-- A localized alert never projects to `Json.null` (it is an object). -/
theorem APSLocalizedAlert.toJson_ne_null (l : APSLocalizedAlert) :
    l.toJson ≠ Json.null := by
  rw [locAlert_toJson_eq]
  exact fun h => Json.noConfusion h

/-- C1: the `APS` projection is an object whose keys all come from
`alert`, `badge`, `sound`, `content-available` (hyphenated), `category`;
each of those keys is present iff the corresponding field is `some`, and
no value in the object is JSON null (absent fields simply have no key). -/
theorem aps_projection_keys_iff_field_present (a : APS) :
    ∃ kvs, a.toJson = Json.obj kvs ∧
    (("alert" ∈ kvs.map Prod.fst) ↔ a.alert.isSome) ∧
    (("badge" ∈ kvs.map Prod.fst) ↔ a.badge.isSome) ∧
    (("sound" ∈ kvs.map Prod.fst) ↔ a.sound.isSome) ∧
    (("content-available" ∈ kvs.map Prod.fst) ↔ a.content_available.isSome) ∧
    (("category" ∈ kvs.map Prod.fst) ↔ a.category.isSome) ∧
    (∀ kv ∈ kvs, kv.1 = "alert" ∨ kv.1 = "badge" ∨ kv.1 = "sound" ∨
      kv.1 = "content-available" ∨ kv.1 = "category") ∧
    (∀ kv ∈ kvs, kv.2 ≠ Json.null) := by
  refine ⟨_, aps_toJson_eq a, ?_⟩
  obtain ⟨al, b, snd, ca, cat⟩ := a
  rcases al with _ | (s | l) <;> rcases b with _ | b <;> rcases snd with _ | snd <;>
    rcases ca with _ | ca <;> rcases cat with _ | cat <;>
    simp [optEntry, alertJson, APSLocalizedAlert.toJson_ne_null]

set_option maxHeartbeats 3200000 in
/-- C2: the localized-alert projection always carries `title` and
`body`; each of `title-loc-key`, `title-loc-args`, `action-loc-key`,
`loc-key`, `loc-args` maps to its value when set and to explicit JSON
null when absent; `launch-image` maps to its value when set and is
absent from the object otherwise. -/
theorem localized_alert_projection_null_vs_omit (l : APSLocalizedAlert) :
    ∃ kvs, l.toJson = Json.obj kvs ∧
    kvs.lookup "title" = some (Json.str l.title) ∧
    kvs.lookup "body" = some (Json.str l.body) ∧
    kvs.lookup "title-loc-key" = some (nullOr Json.str l.title_loc_key) ∧
    kvs.lookup "title-loc-args" = some (nullOr strListJson l.title_loc_args) ∧
    kvs.lookup "action-loc-key" = some (nullOr Json.str l.action_loc_key) ∧
    kvs.lookup "loc-key" = some (nullOr Json.str l.loc_key) ∧
    kvs.lookup "loc-args" = some (nullOr strListJson l.loc_args) ∧
    kvs.lookup "launch-image" = l.launch_image.map Json.str := by
  refine ⟨_, locAlert_toJson_eq l, ?_⟩
  obtain ⟨t, bd, (_ | tlk), (_ | tla), (_ | alk), (_ | lk), (_ | la), (_ | li)⟩ := l <;>
    exact ⟨rfl, rfl, rfl, rfl, rfl, rfl, rfl, rfl⟩

/-- The payload projection is the singleton object `aps ↦ APS.toJson`. -/
theorem payload_toJson_eq (p : Payload) : p.toJson = Json.obj [("aps", p.aps.toJson)] := rfl

/-- C3: the silent-notification constructor takes no inputs and its
payload renders to exactly the text of the single hyphenated key, with
`alert`, `badge`, `sound`, `category` all absent and the
content-available flag set to 1.  Being a constant of the (stateless,
pure) model, the result is the same on every call. -/
theorem silent_notification_renders_exactly :
    Payload.new_silent_notification.toString =
      "\x7b\"aps\":\x7b\"content-available\":1\x7d\x7d" ∧
    Payload.new_silent_notification.aps.alert = none ∧
    Payload.new_silent_notification.aps.badge = none ∧
    Payload.new_silent_notification.aps.sound = none ∧
    Payload.new_silent_notification.aps.category = none ∧
    Payload.new_silent_notification.aps.content_available = some 1 :=
  ⟨rfl, rfl, rfl, rfl, rfl, rfl⟩

/-- C4: a standard-constructor payload projects to a root with the
single `aps` object whose keys are exactly `alert`, `badge`, `sound`,
plus `category` iff one was provided, and never `content-available`. -/
theorem standard_constructor_key_set (alert : APSAlert) (badge : Nat)
    (sound : String) (category : Option String) :
    ∃ kvs, (Payload.new alert badge sound category).toJson =
        Json.obj [("aps", Json.obj kvs)] ∧
      kvs.map Prod.fst = "alert" :: "badge" ::
        ((match category with | some _ => ["category"] | none => []) ++ ["sound"]) ∧
      "content-available" ∉ kvs.map Prod.fst := by
  rcases category with _ | c <;>
    exact ⟨_, by rw [payload_toJson_eq, aps_toJson_eq], by simp [Payload.new, optEntry],
      by simp [Payload.new, optEntry]⟩

/-- C5, counterexample: the action-notification scenario does not
render with `sound` before `category`; the `BTreeMap` serializer emits
keys in ascending order, so `category` comes first. -/
theorem action_scenario_not_spec_key_order :
    (Payload.new_action_notification (.plain "Reminder") none "chime" "REMINDER_CAT").toString ≠
      "\x7b\"aps\":\x7b\"alert\":\"Reminder\",\"sound\":\"chime\",\"category\":\"REMINDER_CAT\"\x7d\x7d" := by
  decide

/-- C5, amended: the scenario renders exactly to the same object but
with keys in ascending order (`alert`, `category`, `sound`), and with
no `badge` key. -/
theorem action_scenario_renders_sorted_keys :
    (Payload.new_action_notification (.plain "Reminder") none "chime" "REMINDER_CAT").toString =
      "\x7b\"aps\":\x7b\"alert\":\"Reminder\",\"category\":\"REMINDER_CAT\",\"sound\":\"chime\"\x7d\x7d" := by
  decide

/-- C6: whenever the alert field holds the `Plain` variant, the `alert`
key of the serialized `aps` object maps to the bare JSON string. -/
theorem plain_alert_serializes_to_bare_string (p : Payload) (s : String)
    (h : p.aps.alert = some (.plain s)) :
    ∃ kvs, p.aps.toJson = Json.obj kvs ∧ kvs.lookup "alert" = some (Json.str s) := by
  refine ⟨_, aps_toJson_eq _, ?_⟩
  rw [h]
  rfl

/-- Witness for C6 at a concrete payload. -/
theorem plain_alert_serializes_to_bare_string_witness :
    (Payload.new (.plain "Hi") 1 "default" none).aps.alert = some (.plain "Hi") ∧
    ∃ kvs, (Payload.new (.plain "Hi") 1 "default" none).aps.toJson = Json.obj kvs ∧
      kvs.lookup "alert" = some (Json.str "Hi") :=
  ⟨rfl, plain_alert_serializes_to_bare_string (Payload.new (.plain "Hi") 1 "default" none) "Hi" rfl⟩

/-- C7: `Payload::len` returns exactly the UTF-8 byte length of the
rendered text (`to_string`), and both are pure functions. -/
theorem len_eq_rendered_byte_length (p : Payload) :
    p.len = (Payload.toString p).utf8ByteSize := rfl

/-- C8: rendering is a function of the model state alone: payloads with
the same `aps` value render to the same text, so two renderings of the
same payload are byte-identical. -/
theorem rendering_deterministic (p q : Payload) (h : p.aps = q.aps) :
    p.toString = q.toString := by
  cases p
  cases q
  cases h
  rfl

/-- Witness for C8: two syntactically different payload terms with the
same model state render identically. -/
theorem rendering_deterministic_witness :
    (Payload.mk ⟨none, none, none, some 1, none⟩).aps = Payload.new_silent_notification.aps ∧
    (Payload.mk ⟨none, none, none, some 1, none⟩).toString =
      Payload.new_silent_notification.toString :=
  ⟨rfl, rendering_deterministic (Payload.mk ⟨none, none, none, some 1, none⟩)
    Payload.new_silent_notification rfl⟩

/-- C9: the root of the serialized document is an object with exactly
one key, `aps`, carrying the `APS` projection. -/
theorem root_is_single_aps_object (p : Payload) :
    p.toJson = Json.obj [("aps", p.aps.toJson)] := rfl

/-- The executable comparison implies the lexicographic order on
character lists. -/
theorem charsLt_lt : ∀ {xs ys : List Char}, charsLt xs ys = true → List.lt xs ys := by
  intro xs ys h
  induction xs generalizing ys with
  | nil =>
    cases ys with
    | nil => simp [charsLt] at h
    | cons y ys => exact List.lt.nil y ys
  | cons x xs ih =>
    cases ys with
    | nil => simp [charsLt] at h
    | cons y ys =>
      by_cases hxy : x < y
      · exact List.lt.head _ _ hxy
      · by_cases hxe : x = y
        · subst hxe
          simp only [charsLt, if_neg hxy, if_pos rfl] at h
          exact List.lt.tail hxy hxy (ih h)
        · simp [charsLt, hxy, hxe] at h

/-- The executable key comparison implies `<` on strings. -/
theorem strLt_lt {a b : String} (h : strLt a b = true) : a < b := by
  rw [String.lt_iff_toList_lt]
  exact (List.lt_iff_lex_lt _ _).mp (charsLt_lt h)

/-- Totality of the executable comparison: two different lists compare
one way or the other. -/
theorem charsLt_flip : ∀ {xs ys : List Char}, charsLt xs ys = false → xs ≠ ys →
    charsLt ys xs = true := by
  intro xs ys h hne
  induction xs generalizing ys with
  | nil =>
    cases ys with
    | nil => exact absurd rfl hne
    | cons y ys => simp [charsLt] at h
  | cons x xs ih =>
    cases ys with
    | nil => rfl
    | cons y ys =>
      by_cases hxy : x < y
      · simp [charsLt, hxy] at h
      · by_cases hxe : x = y
        · subst hxe
          simp only [charsLt, if_neg hxy, if_pos rfl] at h
          have hne' : xs ≠ ys := fun he => hne (by rw [he])
          simpa only [charsLt, if_neg hxy, if_pos rfl] using ih h hne'
        · have hyx : y < x := by
            rcases lt_trichotomy x y with h1 | h1 | h1
            · exact absurd h1 hxy
            · exact absurd h1 hxe
            · exact h1
          simp [charsLt, hyx]

/-- Totality of the executable key comparison on strings. -/
theorem strLt_flip {a b : String} (h : strLt a b = false) (hne : a ≠ b) :
    strLt b a = true :=
  charsLt_flip h fun he => hne (String.toList_inj.mp he)

/-- Every object in a JSON tree has its keys in strictly ascending
(lexicographic) order. -/
inductive Json.KeysSorted : Json → Prop where
  | null : Json.KeysSorted Json.null
  | num (n : Nat) : Json.KeysSorted (Json.num n)
  | str (s : String) : Json.KeysSorted (Json.str s)
  | arr (xs : List Json) : (∀ j ∈ xs, Json.KeysSorted j) → Json.KeysSorted (Json.arr xs)
  | obj (kvs : List (String × Json)) :
      List.Pairwise (fun a b : String × Json => a.1 < b.1) kvs →
      (∀ kv ∈ kvs, Json.KeysSorted kv.2) → Json.KeysSorted (Json.obj kvs)

/-- A well-formed map: keys strictly ascending, values sorted. -/
def GoodMap (kvs : List (String × Json)) : Prop :=
  List.Pairwise (fun a b : String × Json => a.1 < b.1) kvs ∧
  ∀ kv ∈ kvs, Json.KeysSorted kv.2

/-- The empty map is well formed. -/
theorem goodMap_nil : GoodMap [] :=
  ⟨List.Pairwise.nil, fun _ h => absurd h (List.not_mem_nil _)⟩

/-- Members of `mapInsert k v kvs` are `(k, v)` or members of `kvs`. -/
theorem mem_of_mem_mapInsert {k : String} {v : Json} :
    ∀ {kvs kv}, kv ∈ mapInsert k v kvs → kv = (k, v) ∨ kv ∈ kvs := by
  intro kvs
  induction kvs with
  | nil => intro kv h; exact Or.inl (by simpa [mapInsert] using h)
  | cons e rest ih =>
    obtain ⟨k', v'⟩ := e
    intro kv h
    simp only [mapInsert] at h
    split at h
    · rcases List.mem_cons.mp h with rfl | h'
      · exact Or.inl rfl
      · exact Or.inr h'
    · split at h
      · rcases List.mem_cons.mp h with rfl | h'
        · exact Or.inl rfl
        · exact Or.inr (List.mem_cons_of_mem _ h')
      · rcases List.mem_cons.mp h with rfl | h'
        · exact Or.inr (List.mem_cons_self _ _)
        · rcases ih h' with h'' | h''
          · exact Or.inl h''
          · exact Or.inr (List.mem_cons_of_mem _ h'')

/-- Insertion (`mapInsert`) preserves well-formedness, for any key and any sorted
value: this is the `BTreeMap` invariant behind deterministic key order. -/
theorem goodMap_insert {k : String} {v : Json} (hv : Json.KeysSorted v) :
    ∀ {kvs}, GoodMap kvs → GoodMap (mapInsert k v kvs) := by
  intro kvs
  induction kvs with
  | nil =>
    intro _
    refine ⟨List.pairwise_singleton _ _, ?_⟩
    intro kv h
    rw [List.mem_singleton.mp h]
    exact hv
  | cons e rest ih =>
    obtain ⟨k', v'⟩ := e
    intro hg
    obtain ⟨hp, hs⟩ := hg
    have hhead : ∀ x ∈ rest, k' < x.1 := fun x hx => (List.pairwise_cons.mp hp).1 x hx
    have hg' : GoodMap rest :=
      ⟨(List.pairwise_cons.mp hp).2, fun kv h => hs kv (List.mem_cons_of_mem _ h)⟩
    simp only [mapInsert]
    split
    · rename_i h1
      refine ⟨List.pairwise_cons.mpr ⟨?_, hp⟩, ?_⟩
      · intro x hx
        rcases List.mem_cons.mp hx with rfl | hx'
        · exact strLt_lt h1
        · exact lt_trans (strLt_lt h1) (hhead x hx')
      · intro kv h
        rcases List.mem_cons.mp h with rfl | h'
        · exact hv
        · exact hs kv h'
    · split
      · rename_i h1 h2
        subst h2
        refine ⟨List.pairwise_cons.mpr ⟨hhead, hg'.1⟩, ?_⟩
        intro kv h
        rcases List.mem_cons.mp h with rfl | h'
        · exact hv
        · exact hs kv (List.mem_cons_of_mem _ h')
      · rename_i h1 h2
        have h1' : strLt k k' = false := by
          revert h1
          cases strLt k k' <;> simp
        have hk : k' < k := strLt_lt (strLt_flip h1' fun he => h2 he)
        refine ⟨List.pairwise_cons.mpr ⟨?_, (ih hg').1⟩, ?_⟩
        · intro x hx
          rcases mem_of_mem_mapInsert hx with rfl | hx'
          · exact hk
          · exact hhead x hx'
        · intro kv h
          rcases List.mem_cons.mp h with rfl | h'
          · exact hs _ (List.mem_cons_self _ _)
          · exact (ih hg').2 kv h'

/-- A well-formed map gives a sorted object. -/
theorem keysSorted_obj_of_goodMap {kvs} (h : GoodMap kvs) :
    Json.KeysSorted (Json.obj kvs) :=
  Json.KeysSorted.obj kvs h.1 h.2

/-- String arrays are (vacuously) sorted JSON values. -/
theorem strListJson_sorted (xs : List String) : Json.KeysSorted (strListJson xs) := by
  refine Json.KeysSorted.arr _ ?_
  intro j hj
  simp only [List.mem_map] at hj
  obtain ⟨s, _, rfl⟩ := hj
  exact Json.KeysSorted.str s

/-- The localized-alert object has its keys in ascending order. -/
theorem locAlert_toJson_sorted (l : APSLocalizedAlert) :
    Json.KeysSorted l.toJson := by
  obtain ⟨t, bd, tlk, tla, alk, lk, la, li⟩ := l
  rcases tlk with _ | tlk <;> rcases tla with _ | tla <;> rcases alk with _ | alk <;>
    rcases lk with _ | lk <;> rcases la with _ | la <;> rcases li with _ | li <;>
    · apply keysSorted_obj_of_goodMap
      repeat'
        first
        | exact goodMap_nil
        | apply goodMap_insert
        | exact Json.KeysSorted.null
        | exact Json.KeysSorted.str _
        | exact strListJson_sorted _

/-- The `aps` object has its keys in ascending order. -/
theorem aps_toJson_sorted (a : APS) : Json.KeysSorted a.toJson := by
  obtain ⟨al, b, snd, ca, cat⟩ := a
  rcases al with _ | (s | l) <;> rcases b with _ | b <;> rcases snd with _ | snd <;>
    rcases ca with _ | ca <;> rcases cat with _ | cat <;>
    · apply keysSorted_obj_of_goodMap
      repeat'
        first
        | exact goodMap_nil
        | apply goodMap_insert
        | exact Json.KeysSorted.null
        | exact Json.KeysSorted.num _
        | exact Json.KeysSorted.str _
        | exact locAlert_toJson_sorted _

/-- C10: every object in the JSON tree emitted for a payload (the
root, the `aps` object and any localized-alert object) lists its keys
in strictly ascending lexicographic order — the concrete key ordering
behind the `BTreeMap`-based serializer. -/
theorem payload_json_keys_ascending (p : Payload) : Json.KeysSorted p.toJson := by
  apply keysSorted_obj_of_goodMap
  exact goodMap_insert (aps_toJson_sorted p.aps) goodMap_nil

end Apns
